import Mathlib

/-!
Verification of the vCard QR-code form logic (`src/components/vcard/VCardForm.tsx`).

The development embeds, as executable Lean functions:
* the JS string primitives the component relies on (`trim`, `toLowerCase`,
  truthiness of strings, regex replacement used for the download slug);
* the zod form schema (`formSchema`) as per-field validation results,
  including the trim transforms of `z.string().trim()` and the
  email / URL checks of `z.email(...)` / `z.url(...)`;
* the pure serializer `buildVCard`;
* the stateful component (`errors`, `qrCodeData`, `isGenerating`, `qrError`)
  together with `handleSubmit` (split at its single `await` point into
  `submitStart` / `submitResolve`), `resetFormData`, `closeQrModal`,
  `setFieldError`, `validateField`, `handleChange`, `handleBlur`;
* the download-filename derivation of `downloadQrCode`.
-/

namespace VCardQR

/-! ## JS string primitives -/

/-- Whitespace characters stripped by `String.prototype.trim` (the ASCII
whitespace subset; the exotic Unicode space characters never matter here). -/
def jsWhitespace (c : Char) : Bool :=
  c = ' ' || c = '\t' || c = '\n' || c = '\r' || c = '\x0b' || c = '\x0c'

/-- `trim` on the character list: drop whitespace from both ends. -/
def jsTrimList (cs : List Char) : List Char :=
  (((cs.dropWhile jsWhitespace).reverse).dropWhile jsWhitespace).reverse

/-- JS `s.trim()`. -/
def jsTrim (s : String) : String :=
  ⟨jsTrimList s.data⟩

/-- JS `a || b` on strings (empty string is falsy). -/
def jsOr (a b : String) : String :=
  if a = "" then b else a

/-- JS `s.toLowerCase()` (ASCII case mapping). -/
def jsToLower (s : String) : String :=
  ⟨s.data.map Char.toLower⟩

/-! ## Email / URL grammars

`formSchema` delegates the email and website checks to the zod library:
`z.email("validation.emailInvalid")` and `z.url("validation.websiteInvalid")`.
These two grammars live outside the repository. -/

/-- Character allowed anywhere in the local part of an email
(zod's class `[A-Za-z0-9_'+\-\.]`). -/
def isEmailLocalChar (c : Char) : Bool :=
  c.isAlpha || c.isDigit || c = '_' || c = '\'' || c = '+' || c = '-' || c = '.'

/-- Character allowed as the last character of the local part
(zod's class `[A-Za-z0-9_+-]`). -/
def isEmailLocalEndChar (c : Char) : Bool :=
  c.isAlpha || c.isDigit || c = '_' || c = '+' || c = '-'

/-- Split a character list at the first occurrence of `sep`;
`none` when `sep` does not occur. -/
def splitFirst (sep : Char) : List Char → Option (List Char × List Char)
  | [] => none
  | c :: cs =>
    if c = sep then some ([], cs)
    else
      match splitFirst sep cs with
      | none => none
      | some (l, r) => some (c :: l, r)

/-- Whether the list contains two consecutive dots. -/
def hasDoubleDot : List Char → Bool
  | [] => false
  | [_] => false
  | a :: b :: rest => (a = '.' && b = '.') || hasDoubleDot (b :: rest)

/-- A non-final domain label: `[A-Za-z0-9][A-Za-z0-9-]*`. -/
def isDomainLabel : List Char → Bool
  | [] => false
  | c :: rest => (c.isAlpha || c.isDigit) && rest.all (fun d => d.isAlpha || d.isDigit || d = '-')

/-- The final domain label: `[A-Za-z]{2,}`. -/
def isTld (cs : List Char) : Bool :=
  decide (cs.length ≥ 2) && cs.all Char.isAlpha

/-- Modelled from the spec: the "standard email grammar" used by the external
validation library for `z.email`, i.e. the pattern
`^(?!\.)(?!.*\.\.)([A-Za-z0-9_'+\-\.]*)[A-Za-z0-9_+-]@([A-Za-z0-9][A-Za-z0-9\-]*\.)+[A-Za-z]{2,}$`:
a non-empty local part over the wide class, not starting with a dot, ending in
the narrow class, no two consecutive dots anywhere, an `@`, then one or more
alphanumeric-headed labels and a purely alphabetic top-level label of length
at least two. -/
def isZodEmailChars (cs : List Char) : Bool :=
  match splitFirst '@' cs with
  | none => false
  | some (loc, domain) =>
    (match loc with
     | [] => false
     | c :: _ => c ≠ '.') &&
    loc.all isEmailLocalChar &&
    (match loc.getLast? with
     | none => false
     | some c => isEmailLocalEndChar c) &&
    !hasDoubleDot cs &&
    domain.all (fun d => d ≠ '@') &&
    (let labels := domain.splitOn '.'
     decide (labels.length ≥ 2) &&
     labels.dropLast.all isDomainLabel &&
     (match labels.getLast? with
      | none => false
      | some tld => isTld tld))

/-- The email check run by the schema on the raw (untrimmed) field value. -/
def isZodEmail (s : String) : Bool :=
  isZodEmailChars s.data

/-- Characters allowed after the first character of a URL scheme. -/
def isSchemeRestChar (c : Char) : Bool :=
  c.isAlpha || c.isDigit || c = '+' || c = '-' || c = '.'

/-- Scan scheme characters until a `:` is found. -/
def schemeRestThenColon : List Char → Bool
  | [] => false
  | c :: cs => if c = ':' then true else isSchemeRestChar c && schemeRestThenColon cs

/-- An absolute-URL candidate: an ASCII-letter-headed scheme followed by `:`. -/
def isAcceptedUrlChars : List Char → Bool
  | [] => false
  | c :: cs => c.isAlpha && schemeRestThenColon cs

/-- Modelled from the spec: the "standard absolute-URL grammar" used by the
external validation library for `z.url`. The underlying URL parser first
strips leading and trailing whitespace from its input and then requires an
absolute URL: a scheme (an ASCII letter followed by letters, digits, `+`,
`-`, `.`) terminated by a colon. -/
def isAcceptedUrl (s : String) : Bool :=
  isAcceptedUrlChars (jsTrimList s.data)

/-! ## The contact record and the form schema -/

/-- The twelve form fields (`FormState` keys). -/
inductive Field
  | firstName
  | lastName
  | jobTitle
  | company
  | email
  | phone
  | website
  | street
  | city
  | state
  | postalCode
  | country
deriving DecidableEq

/-- All twelve fields. -/
def Field.fields : List Field :=
  [.firstName, .lastName, .jobTitle, .company, .email, .phone,
   .website, .street, .city, .state, .postalCode, .country]

/-- The contact record (`FormState` in the source): twelve string fields. -/
structure FormState where
  firstName : String
  lastName : String
  jobTitle : String
  company : String
  email : String
  phone : String
  website : String
  street : String
  city : String
  state : String
  postalCode : String
  country : String
deriving DecidableEq

/-- Field lookup. -/
def FormState.get (r : FormState) : Field → String
  | .firstName => r.firstName
  | .lastName => r.lastName
  | .jobTitle => r.jobTitle
  | .company => r.company
  | .email => r.email
  | .phone => r.phone
  | .website => r.website
  | .street => r.street
  | .city => r.city
  | .state => r.state
  | .postalCode => r.postalCode
  | .country => r.country

/-- Field update. -/
def FormState.set (r : FormState) (f : Field) (v : String) : FormState :=
  match f with
  | .firstName => { r with firstName := v }
  | .lastName => { r with lastName := v }
  | .jobTitle => { r with jobTitle := v }
  | .company => { r with company := v }
  | .email => { r with email := v }
  | .phone => { r with phone := v }
  | .website => { r with website := v }
  | .street => { r with street := v }
  | .city => { r with city := v }
  | .state => { r with state := v }
  | .postalCode => { r with postalCode := v }
  | .country => { r with country := v }

/-- The empty record (`initialFormState`). -/
def initialFormState : FormState :=
  { firstName := "", lastName := "", jobTitle := "", company := "", email := "",
    phone := "", website := "", street := "", city := "", state := "",
    postalCode := "", country := "" }

/-- Per-field outcome of `formSchema.shape[field].safeParse(value)`:
`none` on success, `some key` with the schema's message key on failure.
* `firstName`: `z.string().trim().min(1, "validation.firstNameRequired")` —
  the trim transform runs first, the min-length check sees the trimmed value.
* `phone`: `z.string().trim().min(1, "validation.phoneRequired")`.
* `email`: `z.email("validation.emailInvalid").or(z.literal(""))` —
  no trim: the raw value must be empty or match the email grammar.
* `website`: `z.url("validation.websiteInvalid").or(z.literal(""))` —
  no trim: the raw value must be empty or be an accepted URL.
* every other field: `z.string().trim()` — always succeeds. -/
def validateFieldResult : Field → String → Option String
  | .firstName, v => if jsTrim v = "" then some "validation.firstNameRequired" else none
  | .phone, v => if jsTrim v = "" then some "validation.phoneRequired" else none
  | .email, v => if v = "" || isZodEmail v then none else some "validation.emailInvalid"
  | .website, v => if v = "" || isAcceptedUrl v then none else some "validation.websiteInvalid"
  | _, _ => none

/-- The per-field error map produced by a failing
`formSchema.safeParse(formData)` (zod's `flatten().fieldErrors`, first message
per field, as collected by the reduce in `handleSubmit`). -/
def validateRecordErrors (r : FormState) : Field → Option String :=
  fun f => validateFieldResult f (r.get f)

/-- Whether `formSchema.safeParse(record)` succeeds: every field passes. -/
def recordValid (r : FormState) : Bool :=
  Field.fields.all fun f => (validateFieldResult f (r.get f)).isNone

/-- The parsed output of a successful `formSchema.safeParse`: the
`z.string().trim()` fields come back trimmed, email and website unchanged. -/
def trimRecord (r : FormState) : FormState :=
  { firstName := jsTrim r.firstName, lastName := jsTrim r.lastName,
    jobTitle := jsTrim r.jobTitle, company := jsTrim r.company,
    email := r.email, phone := jsTrim r.phone, website := r.website,
    street := jsTrim r.street, city := jsTrim r.city, state := jsTrim r.state,
    postalCode := jsTrim r.postalCode, country := jsTrim r.country }

/-- `formSchema.safeParse(record)`: parsed record on success, the per-field
error map on failure. -/
def parseRecord (r : FormState) : Except (Field → Option String) FormState :=
  if recordValid r then .ok (trimRecord r) else .error (validateRecordErrors r)

/-! ## The serializer (`buildVCard`) -/

/-- `` `${firstName} ${lastName}`.trim() || firstName || lastName ``. -/
def displayName (firstName lastName : String) : String :=
  jsOr (jsOr (jsTrim (firstName ++ " " ++ lastName)) firstName) lastName

/-- The `addressSegments` array: two always-empty segments, then the five
address fields. -/
def addressSegments (d : FormState) : List String :=
  ["", "", d.street, d.city, d.state, d.postalCode, d.country]

/-- `addressSegments.some((segment) => segment?.trim())`: at least one segment
is non-empty after trimming. -/
def addrCond (d : FormState) : Bool :=
  (addressSegments d).any fun s => jsTrim s ≠ ""

/-- The `ADR;TYPE=WORK:` line: all seven segments trimmed and joined by `;`. -/
def adrLine (d : FormState) : String :=
  "ADR;TYPE=WORK:" ++ String.intercalate ";" ((addressSegments d).map jsTrim)

/-- The `lines` array built by `buildVCard`, in push order. -/
def buildVCardLines (d : FormState) : List String :=
  let formattedName := d.lastName ++ ";" ++ d.firstName
  ["BEGIN:VCARD", "VERSION:3.0", "N:" ++ formattedName,
   "FN:" ++ displayName d.firstName d.lastName]
  ++ (if d.jobTitle ≠ "" then ["TITLE:" ++ d.jobTitle] else [])
  ++ (if d.company ≠ "" then ["ORG:" ++ d.company] else [])
  ++ (if d.email ≠ "" then ["EMAIL;TYPE=INTERNET:" ++ d.email] else [])
  ++ (if d.phone ≠ "" then ["TEL;TYPE=CELL:" ++ d.phone] else [])
  ++ (if d.website ≠ "" then ["URL:" ++ d.website] else [])
  ++ (if addrCond d then [adrLine d] else [])
  ++ ["END:VCARD"]

/-- `buildVCard`: the lines joined by `"\n"`. -/
def buildVCard (d : FormState) : String :=
  String.intercalate "\n" (buildVCardLines d)

/-! ## The component state and the orchestrator -/

/-- One encode request handed to `QRCode.toDataURL`. -/
structure EncodeRequest where
  payload : String
  errorCorrectionLevel : String
  margin : Nat
  scale : Nat
deriving DecidableEq

/-- How the awaited encode request resolves. -/
inductive EncodeResult
  | success (dataUrl : String)
  | failure
deriving DecidableEq

/-- The component state: the five `useState` hooks of `VCardForm`. -/
structure ComponentState where
  formData : FormState
  errors : Field → Option String
  qrCodeData : Option String
  isGenerating : Bool
  qrError : Option String

/-- The empty error map. -/
def noErrors : Field → Option String := fun _ => none

/-- The initial component state. -/
def initialState : ComponentState :=
  { formData := initialFormState, errors := noErrors, qrCodeData := none,
    isGenerating := false, qrError := none }

/-- The synchronous part of `handleSubmit`, up to the `await`: validate;
on failure replace the error map and stop; on success clear the error map and
the QR error, set the generating flag, serialize, and issue the single encode
request with error-correction level `"M"`, margin `1`, scale `6`. -/
def submitStart (s : ComponentState) : ComponentState × Option EncodeRequest :=
  match parseRecord s.formData with
  | .error m => ({ s with errors := m }, none)
  | .ok d =>
    ({ s with errors := noErrors, qrError := none, isGenerating := true },
     some { payload := buildVCard d, errorCorrectionLevel := "M", margin := 1, scale := 6 })

/-- The continuation of `handleSubmit` after the `await`: on success store the
data URL, on failure set the QR error key; the `finally` clause clears the
generating flag on both paths. -/
def submitResolve (s : ComponentState) : EncodeResult → ComponentState
  | .success url => { s with qrCodeData := some url, isGenerating := false }
  | .failure => { s with qrError := some "generationFailed", isGenerating := false }

/-- A whole `handleSubmit` invocation, run to completion with the given
encoder outcome; also reports the encode request it issued, if any. -/
def handleSubmit (s : ComponentState) (r : EncodeResult) :
    ComponentState × Option EncodeRequest :=
  match submitStart s with
  | (s1, none) => (s1, none)
  | (s1, some req) => (submitResolve s1 r, some req)

/-- `resetFormData`: restore the empty record, clear errors, artifact and QR
error. It does not touch `isGenerating`. -/
def resetFormData (s : ComponentState) : ComponentState :=
  { formData := initialFormState, errors := noErrors, qrCodeData := none,
    qrError := none, isGenerating := s.isGenerating }

/-- `closeQrModal`: drop the artifact. -/
def closeQrModal (s : ComponentState) : ComponentState :=
  { s with qrCodeData := none }

/-- The key of the helper message shown under the form: the QR error key
prefixed by `messages.errors.`, when set. -/
def helperMessageKey (s : ComponentState) : Option String :=
  s.qrError.map fun k => "messages.errors." ++ k

/-- Pointwise update of the error map. -/
def updateErrors (e : Field → Option String) (f : Field) (v : Option String) :
    Field → Option String :=
  fun g => if g = f then v else e g

/-- `setFieldError`: with a message, insert it (returning the map unchanged when
the same message is already present); without one, delete the field's entry
(returning the map unchanged when the field has no entry). -/
def setFieldError (e : Field → Option String) (f : Field) (message : Option String) :
    Field → Option String :=
  match message with
  | some m => if e f = some m then e else updateErrors e f (some m)
  | none => if (e f).isSome then updateErrors e f none else e

/-- `validateField`: run the field's schema on the value, record the first
issue's message key on failure, clear the field's entry on success; returns
the updated map and the boolean result. -/
def validateField (e : Field → Option String) (f : Field) (v : String) :
    (Field → Option String) × Bool :=
  match validateFieldResult f v with
  | some msg => (setFieldError e f (some msg), false)
  | none => (setFieldError e f none, true)

/-- `handleChange`: store the new value of one field. -/
def handleChange (s : ComponentState) (f : Field) (v : String) : ComponentState :=
  { s with formData := s.formData.set f v }

/-- `handleBlur`: validate the field against its current committed value. -/
def handleBlur (s : ComponentState) (f : Field) : ComponentState :=
  { s with errors := (validateField s.errors f (s.formData.get f)).1 }

/-- The user-triggered operations, each run to completion. -/
inductive Action
  | submit (r : EncodeResult)
  | reset
  | closeModal
  | change (f : Field) (v : String)
  | blur (f : Field)

/-- One completed operation. -/
def stepState (s : ComponentState) : Action → ComponentState
  | .submit r => (handleSubmit s r).1
  | .reset => resetFormData s
  | .closeModal => closeQrModal s
  | .change f v => handleChange s f v
  | .blur f => handleBlur s f

/-- Run a sequence of completed operations from the initial state. -/
def runActions (acts : List Action) : ComponentState :=
  acts.foldl stepState initialState

/-! ## The download filename (`downloadQrCode`) -/

/-- The character class kept by `replace(/[^a-z0-9]+/gi, "-")`: with the `i`
flag the class is case-insensitive, so ASCII letters and digits survive. -/
def keepCharCode (c : Char) : Bool :=
  c.isAlpha || c.isDigit

mutual

/-- `replace(/[^…]+/g, "-")`: copy kept characters, replace each maximal run
of dropped characters by a single `-`. -/
def collapseRuns (keep : Char → Bool) : List Char → List Char
  | [] => []
  | c :: cs => if keep c then c :: collapseRuns keep cs else '-' :: skipRun keep cs

/-- Inside a dropped run: skip further dropped characters, resume copying at
the next kept character. -/
def skipRun (keep : Char → Bool) : List Char → List Char
  | [] => []
  | c :: cs => if keep c then c :: collapseRuns keep cs else skipRun keep cs

end

/-- `replace(/^-+|-+$/g, "")`: strip leading and trailing hyphens. -/
def stripHyphens (cs : List Char) : List Char :=
  (((cs.dropWhile fun c => c = '-').reverse).dropWhile fun c => c = '-').reverse

/-- The filename computed by `downloadQrCode` from the two name fields:
combine, trim, trim again, lower-case, collapse non-alphanumeric runs to
hyphens, strip edge hyphens; use the slug plus the fixed suffix when the slug
is non-empty, the fixed default otherwise. -/
def downloadFileName (firstName lastName : String) : String :=
  let combinedName := jsTrim (firstName ++ " " ++ lastName)
  let safeName : String :=
    ⟨stripHyphens (collapseRuns keepCharCode (jsToLower (jsTrim combinedName)).data)⟩
  if safeName ≠ "" then safeName ++ "-vcard-qr.png" else "contact-vcard-qr.png"

/-- The character class the spec names for the slug: `[a-z0-9]`. -/
def keepCharSpec (c : Char) : Bool :=
  c.isLower || c.isDigit

/-- The ExportNamer as the spec words it: combine "first last", trim,
lower-case, replace every run of characters outside `[a-z0-9]` with a single
hyphen, strip leading and trailing hyphens; fixed default base name when the
slug is empty, else the slug, plus the fixed suffix and extension. -/
def nameForSpec (firstName lastName : String) : String :=
  let slug : String :=
    ⟨stripHyphens (collapseRuns keepCharSpec (jsToLower (jsTrim (firstName ++ " " ++ lastName))).data)⟩
  if slug = "" then "contact-vcard-qr.png" else slug ++ "-vcard-qr.png"

/-! ## Concrete fixtures -/

/-- The spec's running example record: Ana Pop with a phone number. -/
def recValid : FormState :=
  { initialFormState with firstName := "Ana", lastName := "Pop", phone := "+40712345678" }

/-- An invalid record: both names empty, phone present. -/
def recInvalid : FormState :=
  { initialFormState with phone := "+40712345678" }

/-- A record whose email field holds a single space. -/
def recEmailWs : FormState :=
  { recValid with email := " " }

/-- Idle state holding the valid example record. -/
def sIdleValid : ComponentState :=
  { initialState with formData := recValid }

/-- Idle state holding the invalid example record. -/
def sInvalid : ComponentState :=
  { initialState with formData := recInvalid }

/-- The state reached after a submit of the valid record has issued its encode
request and is awaiting the encoder: the component is Generating. -/
def sMidFlight : ComponentState :=
  (submitStart sIdleValid).1

/-- A state that already holds an artifact from an earlier generation, with
the valid example record still in the form. -/
def sArt : ComponentState :=
  { sIdleValid with qrCodeData := some "data:image/png;base64,OLD" }

/-! ## Helper lemmas -/

lemma parseRecord_ok {r : FormState} {d : FormState} (h : parseRecord r = .ok d) :
    recordValid r = true ∧ d = trimRecord r := by
  unfold parseRecord at h
  split at h
  · exact ⟨by assumption, (Except.ok.inj h).symm⟩
  · cases h

lemma ws_ne_at {c : Char} (h : jsWhitespace c = true) : c ≠ '@' := by
  intro e
  subst e
  exact absurd h (by decide)

lemma splitFirst_none (sep : Char) (cs : List Char) (h : ∀ c ∈ cs, c ≠ sep) :
    splitFirst sep cs = none := by
  induction cs with
  | nil => rfl
  | cons c cs ih =>
    have hc : ¬(c = sep) := h c (List.mem_cons_self c cs)
    have ih' := ih fun d hd => h d (List.mem_cons_of_mem c hd)
    simp [splitFirst, hc, ih']

lemma jsTrimList_nil_of_ws (cs : List Char) (h : ∀ c ∈ cs, jsWhitespace c = true) :
    jsTrimList cs = [] := by
  unfold jsTrimList
  rw [List.dropWhile_eq_nil_iff.mpr h]
  rfl

lemma field_mem_fields (f : Field) : f ∈ Field.fields := by
  cases f <;> simp [Field.fields]

lemma uint32_le_ofNat_iff (n : Nat) (d : Char) (h : (OfNat.ofNat n : UInt32).toBitVec.toNat = n) :
    ((OfNat.ofNat n : UInt32) ≤ d.val) ↔ n ≤ d.toNat := by
  rw [UInt32.le_def, BitVec.le_def, h]
  exact Iff.rfl

lemma uint32_ofNat_le_iff (n : Nat) (d : Char) (h : (OfNat.ofNat n : UInt32).toBitVec.toNat = n) :
    (d.val ≤ (OfNat.ofNat n : UInt32)) ↔ d.toNat ≤ n := by
  rw [UInt32.le_def, BitVec.le_def, h]
  exact Iff.rfl

lemma charOfNat_toNat (m : Nat) (h : m.isValidChar) : (Char.ofNat m).toNat = m := by
  simp [Char.ofNat, h, Char.ofNatAux, Char.toNat, UInt32.toNat]

/-- `toLowerCase` never yields an ASCII uppercase letter. -/
lemma toLower_isUpper_false (c : Char) : (c.toLower).isUpper = false := by
  simp only [Char.toLower, Char.isUpper]
  split
  · next h =>
    have hv : (c.toNat + 32).isValidChar := by
      left
      omega
    have h1 : (Char.ofNat (c.toNat + 32)).toNat = c.toNat + 32 := charOfNat_toNat _ hv
    rw [Bool.and_eq_false_iff]
    right
    rw [decide_eq_false_iff_not]
    rw [uint32_ofNat_le_iff 90 _ rfl]
    omega
  · next h =>
    rw [Bool.and_eq_false_iff]
    by_cases h65 : 65 ≤ c.toNat
    · right
      rw [decide_eq_false_iff_not, uint32_ofNat_le_iff 90 _ rfl]
      omega
    · left
      rw [decide_eq_false_iff_not, ge_iff_le, uint32_le_ofNat_iff 65 _ rfl]
      omega

lemma dropWhile_head_not {α : Type} (p : α → Bool) (l : List α) (b : α) (rest : List α)
    (h : l.dropWhile p = b :: rest) : p b = false := by
  induction l with
  | nil => cases h
  | cons a l ih =>
    rw [List.dropWhile_cons] at h
    by_cases hpa : p a = true
    · rw [if_pos hpa] at h
      exact ih h
    · rw [if_neg hpa] at h
      cases h
      exact Bool.eq_false_iff.mpr hpa

lemma dropWhile_idem {α : Type} (p : α → Bool) (l : List α) :
    (l.dropWhile p).dropWhile p = l.dropWhile p := by
  cases h : l.dropWhile p with
  | nil => rfl
  | cons b bs =>
    rw [List.dropWhile_cons, if_neg]
    rw [dropWhile_head_not p l b bs h]
    exact Bool.false_ne_true

lemma jsTrimList_idem (cs : List Char) : jsTrimList (jsTrimList cs) = jsTrimList cs := by
  have hstep : (jsTrimList cs).dropWhile jsWhitespace = jsTrimList cs := by
    cases hB : jsTrimList cs with
    | nil => rfl
    | cons b bs =>
      have hpre : jsTrimList cs <+: cs.dropWhile jsWhitespace := by
        have hsuf : ((cs.dropWhile jsWhitespace).reverse).dropWhile jsWhitespace <:+
            (cs.dropWhile jsWhitespace).reverse := List.dropWhile_suffix _
        have h2 := List.reverse_prefix.mpr hsuf
        rwa [List.reverse_reverse] at h2
      obtain ⟨t, ht⟩ := hpre
      rw [hB, List.cons_append] at ht
      have hw : jsWhitespace b = false := dropWhile_head_not _ cs b _ ht.symm
      rw [List.dropWhile_cons, hw]
      simp
  show ((((jsTrimList cs).dropWhile jsWhitespace).reverse).dropWhile jsWhitespace).reverse =
    jsTrimList cs
  rw [hstep]
  have h3 : (jsTrimList cs).reverse = ((cs.dropWhile jsWhitespace).reverse).dropWhile jsWhitespace :=
    List.reverse_reverse _
  rw [h3, dropWhile_idem]
  rfl

lemma jsTrim_idem (s : String) : jsTrim (jsTrim s) = jsTrim s :=
  congrArg String.mk (jsTrimList_idem s.data)

/-- On uppercase-free input the case-insensitive slug class `[a-zA-Z0-9]` and
the spec's class `[a-z0-9]` collapse runs identically. -/
lemma collapse_keep_eq (cs : List Char) (h : ∀ c ∈ cs, c.isUpper = false) :
    collapseRuns keepCharCode cs = collapseRuns keepCharSpec cs ∧
    skipRun keepCharCode cs = skipRun keepCharSpec cs := by
  induction cs with
  | nil => exact ⟨rfl, rfl⟩
  | cons c cs ih =>
    have hu : c.isUpper = false := h c (List.mem_cons_self c cs)
    have hc : keepCharCode c = keepCharSpec c := by
      simp [keepCharCode, keepCharSpec, Char.isAlpha, hu]
    have ih' := ih fun d hd => h d (List.mem_cons_of_mem c hd)
    constructor
    · simp only [collapseRuns, hc]
      cases hk : keepCharSpec c <;> simp [hk, ih'.1, ih'.2]
    · simp only [skipRun, hc]
      cases hk : keepCharSpec c <;> simp [hk, ih'.1, ih'.2]

lemma head_append_lit (a t : String) (c : Char) (h : a.data.head? = some c) :
    (a ++ t).data.head? = some c := by
  rw [String.data_append]
  cases ha : a.data with
  | nil =>
    rw [ha] at h
    cases h
  | cons x xs =>
    rw [ha] at h
    simp only [List.head?] at h
    simp [List.cons_append, List.head?, h]

/-- A string starting with `ADR;TYPE=WORK:` differs from any string whose
first character is not `A`. -/
lemma adr_ne (t b : String) (c : Char) (hb : b.data.head? = some c) (hc : c ≠ 'A') :
    ("ADR;TYPE=WORK:" ++ t) ≠ b := by
  intro e
  have hA : ("ADR;TYPE=WORK:" ++ t).data.head? = some 'A' := head_append_lit _ _ _ rfl
  rw [e, hb] at hA
  exact hc (Option.some.inj hA)

lemma eq_of_mem_ite_singleton {α : Type} {p : Prop} [Decidable p] {x y : α}
    (h : x ∈ (if p then [y] else [])) : x = y := by
  by_cases hp : p
  · rw [if_pos hp] at h
    exact List.mem_singleton.mp h
  · rw [if_neg hp] at h
    exact absurd h (List.not_mem_nil x)

/-! ## Claims -/

/-- Claim C5: serializing the record with firstName "Ana", lastName "Pop",
phone "+40712345678" and all other fields empty returns exactly
`BEGIN:VCARD\nVERSION:3.0\nN:Pop;Ana\nFN:Ana Pop\nTEL;TYPE=CELL:+40712345678\nEND:VCARD`,
lines joined by a single line break, no trailing separator. -/
theorem claim_C5 :
    buildVCard recValid =
      "BEGIN:VCARD\nVERSION:3.0\nN:Pop;Ana\nFN:Ana Pop\nTEL;TYPE=CELL:+40712345678\nEND:VCARD" := by
  decide

/-- Counterexample to claim C3 as stated: submitting a valid record does not
clear the prior artifact. In state `sArt` (valid record, artifact
`some "data:image/png;base64,OLD"` from an earlier generation) the synchronous
part of submit leaves the artifact in place instead of clearing it. -/
theorem claim_C3_counterexample :
    recordValid sArt.formData = true ∧
    sArt.qrCodeData = some "data:image/png;base64,OLD" ∧
    (submitStart sArt).1.qrCodeData = some "data:image/png;base64,OLD" ∧
    (submitStart sArt).1.qrCodeData ≠ none := by
  refine ⟨by decide, rfl, by decide, by decide⟩

/-- Claim C3 (amended): for every valid record, submit transitions to
Generating and, before issuing the encode request, clears the prior
field-error map and the prior generation-error key; the prior artifact is NOT
cleared (it stays until a successful encode replaces it); exactly one encode
request is issued, with the serialized record as payload and options
error-correction level "M" (medium), margin 1, scale 6. -/
theorem claim_C3 : ∀ (s : ComponentState) (d : FormState), parseRecord s.formData = .ok d →
    submitStart s =
      ({ s with errors := noErrors, qrError := none, isGenerating := true },
       some { payload := buildVCard d, errorCorrectionLevel := "M", margin := 1, scale := 6 }) := by
  intro s d h
  unfold submitStart
  rw [h]

/-- Witness for claim C3 at the concrete state `sArt`. -/
theorem claim_C3_witness :
    submitStart sArt =
      ({ sArt with errors := noErrors, qrError := none, isGenerating := true },
       some { payload := buildVCard (trimRecord recValid), errorCorrectionLevel := "M",
              margin := 1, scale := 6 }) :=
  claim_C3 sArt (trimRecord recValid) rfl

/-- Counterexample to claim C1 as stated: while an encode request is in
flight (`sMidFlight` is the state right after a submit of the valid record
issued its request, so the Generating flag is set), invoking submit again is
not ignored: a second encode request is issued. -/
theorem claim_C1_counterexample :
    sMidFlight.isGenerating = true ∧
    (submitStart sMidFlight).2 =
      some { payload := buildVCard (trimRecord recValid), errorCorrectionLevel := "M",
             margin := 1, scale := 6 } := by
  refine ⟨by decide, by decide⟩

/-- Claim C1 (amended): the component logic has no re-entrancy guard — only
the UI submit button is disabled while Generating. A submit invocation
behaves identically whether or not the Generating flag is set (the request it
issues and the resulting error map, error key and artifact do not depend on
the flag), and a submit during Generating with a valid record issues another
encode request; a single submit invocation issues at most the one request it
returns. -/
theorem claim_C1 : ∀ (s : ComponentState) (b : Bool),
    (submitStart { s with isGenerating := b }).2 = (submitStart s).2
  ∧ (submitStart { s with isGenerating := b }).1.errors = (submitStart s).1.errors
  ∧ (submitStart { s with isGenerating := b }).1.qrError = (submitStart s).1.qrError
  ∧ (submitStart { s with isGenerating := b }).1.qrCodeData = (submitStart s).1.qrCodeData
  ∧ (∀ d : FormState, parseRecord s.formData = .ok d → s.isGenerating = true →
      (submitStart s).2 =
        some { payload := buildVCard d, errorCorrectionLevel := "M", margin := 1, scale := 6 }) := by
  intro s b
  unfold submitStart
  cases hp : parseRecord s.formData with
  | error m => simp [hp]
  | ok d =>
    refine ⟨by simp [hp], by simp [hp], by simp [hp], by simp [hp], ?_⟩
    intro d' hd' _
    injection hd' with hdd
    subst hdd
    rfl

/-- Witness for claim C1 at the in-flight state `sMidFlight`. -/
theorem claim_C1_witness :
    (submitStart { sMidFlight with isGenerating := false }).2 = (submitStart sMidFlight).2 ∧
    (submitStart sMidFlight).2 =
      some { payload := buildVCard (trimRecord recValid), errorCorrectionLevel := "M",
             margin := 1, scale := 6 } :=
  ⟨(claim_C1 sMidFlight false).1,
   (claim_C1 sMidFlight false).2.2.2.2 (trimRecord recValid) rfl rfl⟩

/-- Claim C4: for every invalid record, submit stores the failure map with one
message key per failing field (the error map equals the per-field validation
results across all fields), performs no serialization and issues no encode
request, and leaves artifact, generation-error key, generating flag and record
unchanged; for the record with empty first name, empty last name and non-empty
phone, the only entry is `validation.firstNameRequired` on firstName. -/
theorem claim_C4 :
    (∀ (s : ComponentState) (r : EncodeResult), recordValid s.formData = false →
      (handleSubmit s r).2 = none
      ∧ (handleSubmit s r).1.qrCodeData = s.qrCodeData
      ∧ (handleSubmit s r).1.qrError = s.qrError
      ∧ (handleSubmit s r).1.isGenerating = s.isGenerating
      ∧ (handleSubmit s r).1.formData = s.formData
      ∧ ∀ f : Field, (handleSubmit s r).1.errors f = validateFieldResult f (s.formData.get f))
  ∧ (∀ f : Field, validateRecordErrors recInvalid f =
      if f = Field.firstName then some "validation.firstNameRequired" else none) := by
  constructor
  · intro s r h
    unfold handleSubmit submitStart parseRecord
    rw [h]
    simp [validateRecordErrors]
  · intro f
    cases f <;> decide

/-- Witness for claim C4 at the concrete invalid state `sInvalid`. -/
theorem claim_C4_witness :
    recordValid recInvalid = false ∧
    (handleSubmit sInvalid EncodeResult.failure).2 = none :=
  ⟨by decide, (claim_C4.1 sInvalid EncodeResult.failure (by decide)).1⟩

/-- Claim C8: for every valid record whose encode request fails, the state
goes from Generating (flag set after the synchronous part) to Failed with
exactly the key `generationFailed`, displayed as
`messages.errors.generationFailed`; the artifact held before the submit is
unchanged; the invocation issued exactly the one request it returns, and no
further request is issued (no automatic retry). -/
theorem claim_C8 : ∀ (s : ComponentState) (d : FormState), parseRecord s.formData = .ok d →
    (submitStart s).1.isGenerating = true
  ∧ (handleSubmit s .failure).1.qrError = some "generationFailed"
  ∧ helperMessageKey (handleSubmit s .failure).1 = some "messages.errors.generationFailed"
  ∧ (handleSubmit s .failure).1.isGenerating = false
  ∧ (handleSubmit s .failure).1.qrCodeData = s.qrCodeData
  ∧ (handleSubmit s .failure).2 =
      some { payload := buildVCard d, errorCorrectionLevel := "M", margin := 1, scale := 6 } := by
  intro s d h
  unfold handleSubmit submitStart
  rw [h]
  simp [submitResolve, helperMessageKey]

/-- Witness for claim C8 at the concrete state `sArt`. -/
theorem claim_C8_witness :
    (handleSubmit sArt EncodeResult.failure).1.qrError = some "generationFailed" ∧
    (handleSubmit sArt EncodeResult.failure).1.qrCodeData = some "data:image/png;base64,OLD" :=
  ⟨(claim_C8 sArt (trimRecord recValid) rfl).2.1,
   ((claim_C8 sArt (trimRecord recValid) rfl).2.2.2.2.1).trans rfl⟩

/-- Counterexample to claim C9 as stated: `resetFormData` does not clear the
Generating flag. Invoked in the reachable in-flight state `sMidFlight`, reset
leaves the flag set (the claim says it is false after reset). -/
theorem claim_C9_counterexample :
    sMidFlight.isGenerating = true ∧
    (resetFormData sMidFlight).isGenerating = true := by
  refine ⟨by decide, by decide⟩

/-- Claim C9 (amended): the Generating flag is cleared when the encode request
resolves, on both the success and the failure path (the `finally` clause).
`resetFormData` does not modify the flag — a reset during Generating leaves it
set until the in-flight request's resolution clears it. Every completed
operation preserves a cleared flag, and every sequence of completed operations
from the initial state ends with the flag cleared, so no execution leaves the
system permanently marked as Generating. -/
theorem claim_C9 :
    (∀ (s : ComponentState) (r : EncodeResult), (submitResolve s r).isGenerating = false)
  ∧ (∀ s : ComponentState, (resetFormData s).isGenerating = s.isGenerating)
  ∧ (∀ (s : ComponentState) (a : Action), s.isGenerating = false →
      (stepState s a).isGenerating = false)
  ∧ (∀ acts : List Action, (runActions acts).isGenerating = false) := by
  have hres : ∀ (s : ComponentState) (r : EncodeResult), (submitResolve s r).isGenerating = false := by
    intro s r
    cases r <;> rfl
  have hstep : ∀ (s : ComponentState) (a : Action), s.isGenerating = false →
      (stepState s a).isGenerating = false := by
    intro s a h
    cases a with
    | submit r =>
      show ((handleSubmit s r).1).isGenerating = false
      unfold handleSubmit submitStart
      cases hp : parseRecord s.formData with
      | error m => simpa using h
      | ok d => simp [hres]
    | reset => simpa [stepState, resetFormData] using h
    | closeModal => simpa [stepState, closeQrModal] using h
    | change f v => simpa [stepState, handleChange] using h
    | blur f => simpa [stepState, handleBlur] using h
  refine ⟨hres, fun s => rfl, hstep, ?_⟩
  intro acts
  have haux : ∀ (l : List Action) (s : ComponentState), s.isGenerating = false →
      (l.foldl stepState s).isGenerating = false := by
    intro l
    induction l with
    | nil => intro s h; exact h
    | cons a l ih =>
      intro s h
      exact ih (stepState s a) (hstep s a h)
  exact haux acts initialState rfl

/-- Witness for claim C9: the resolution paths and a concrete completed run
clear the flag; one step from the initial state preserves a cleared flag. -/
theorem claim_C9_witness :
    (submitResolve sMidFlight EncodeResult.failure).isGenerating = false ∧
    (stepState initialState Action.reset).isGenerating = false ∧
    (runActions [Action.submit EncodeResult.failure, Action.reset]).isGenerating = false :=
  ⟨claim_C9.1 sMidFlight EncodeResult.failure,
   claim_C9.2.2.1 initialState Action.reset rfl,
   claim_C9.2.2.2 [Action.submit EncodeResult.failure, Action.reset]⟩

/-- Claim C10: single-field validation touches at most the validated field's
entry in the error map — every other field's entry is unchanged; the validated
field's entry afterwards equals the field's validation result (the message key
is inserted or kept on failure, the entry removed on success), and the
returned boolean reports success. -/
theorem claim_C10 : ∀ (e : Field → Option String) (f : Field) (v : String),
    (∀ g : Field, g ≠ f → (validateField e f v).1 g = e g)
  ∧ (validateField e f v).1 f = validateFieldResult f v
  ∧ ((validateField e f v).2 = true ↔ validateFieldResult f v = none) := by
  intro e f v
  unfold validateField setFieldError updateErrors
  cases hr : validateFieldResult f v with
  | some m =>
    refine ⟨?_, ?_, by simp⟩
    · intro g hg
      by_cases he : e f = some m
      · simp [he]
      · simp [he, if_neg hg]
    · by_cases he : e f = some m
      · simp [he]
      · simp [he]
  | none =>
    refine ⟨?_, ?_, by simp⟩
    · intro g hg
      by_cases he : (e f).isSome = true
      · simp [he, if_neg hg]
      · simp [he]
    · by_cases he : (e f).isSome = true
      · simp [he]
      · simp only [he, if_neg]
        exact Option.not_isSome_iff_eq_none.mp (by simp [he])

/-- Claim C6: the serialized output contains the `ADR;TYPE=WORK` line iff at
least one of street, city, state, postalCode, country is non-empty after
trimming; no line starting with `ADR;TYPE=WORK:` appears otherwise; when
present, the line is the two always-empty leading segments followed by the
five trimmed address positions, all separated by `;`, each emitted even when
individually empty. -/
theorem claim_C6 : ∀ d : FormState,
    (adrLine d ∈ buildVCardLines d ↔ addrCond d = true)
  ∧ (addrCond d = true ↔
      (jsTrim d.street ≠ "" ∨ jsTrim d.city ≠ "" ∨ jsTrim d.state ≠ "" ∨
       jsTrim d.postalCode ≠ "" ∨ jsTrim d.country ≠ ""))
  ∧ adrLine d = "ADR;TYPE=WORK:;;" ++ jsTrim d.street ++ ";" ++ jsTrim d.city ++ ";"
      ++ jsTrim d.state ++ ";" ++ jsTrim d.postalCode ++ ";" ++ jsTrim d.country
  ∧ (addrCond d = false → ∀ t : String, ("ADR;TYPE=WORK:" ++ t) ∉ buildVCardLines d) := by
  intro d
  have hno : addrCond d = false → ∀ t : String, ("ADR;TYPE=WORK:" ++ t) ∉ buildVCardLines d := by
    intro haddr t hmem
    simp only [buildVCardLines, haddr, List.mem_append, List.mem_cons, List.not_mem_nil,
      or_false, false_or, Bool.false_eq_true, if_false, List.mem_singleton] at hmem
    rcases hmem with ((((((h | h | h | h) | h) | h) | h) | h) | h) | h
    · exact adr_ne t "BEGIN:VCARD" 'B' rfl (by decide) h
    · exact adr_ne t "VERSION:3.0" 'V' rfl (by decide) h
    · exact adr_ne t _ 'N' (head_append_lit "N:" _ 'N' rfl) (by decide) h
    · exact adr_ne t _ 'F' (head_append_lit "FN:" _ 'F' rfl) (by decide) h
    · exact adr_ne t _ 'T' (head_append_lit "TITLE:" _ 'T' rfl) (by decide)
        (eq_of_mem_ite_singleton h)
    · exact adr_ne t _ 'O' (head_append_lit "ORG:" _ 'O' rfl) (by decide)
        (eq_of_mem_ite_singleton h)
    · exact adr_ne t _ 'E' (head_append_lit "EMAIL;TYPE=INTERNET:" _ 'E' rfl) (by decide)
        (eq_of_mem_ite_singleton h)
    · exact adr_ne t _ 'T' (head_append_lit "TEL;TYPE=CELL:" _ 'T' rfl) (by decide)
        (eq_of_mem_ite_singleton h)
    · exact adr_ne t _ 'U' (head_append_lit "URL:" _ 'U' rfl) (by decide)
        (eq_of_mem_ite_singleton h)
    · exact adr_ne t "END:VCARD" 'E' rfl (by decide) h
  refine ⟨?_, ?_, rfl, hno⟩
  · constructor
    · intro hmem
      cases haddr : addrCond d with
      | true => rfl
      | false => exact absurd hmem (hno haddr _)
    · intro haddr
      simp [buildVCardLines, haddr]
  · have h0 : jsTrim "" = "" := rfl
    simp [addrCond, addressSegments, h0]

/-- Witness for claim C6 at a record with only the street set and at the
empty record. -/
theorem claim_C6_witness :
    adrLine { initialFormState with street := " Main St " } ∈
      buildVCardLines { initialFormState with street := " Main St " } ∧
    adrLine { initialFormState with street := " Main St " } = "ADR;TYPE=WORK:;;Main St;;;;" ∧
    ("ADR;TYPE=WORK:" ++ ";;;;;;") ∉ buildVCardLines initialFormState :=
  ⟨(claim_C6 { initialFormState with street := " Main St " }).1.mpr (by decide),
   ((claim_C6 { initialFormState with street := " Main St " }).2.2.1).trans (by decide),
   (claim_C6 initialFormState).2.2.2 (by decide) ";;;;;;"⟩

/-- Claim C7: the download filename is obtained by combining "first last",
trimming, lower-casing, collapsing every maximal run of characters outside
`[a-z0-9]` to a single hyphen and stripping edge hyphens (the code's
case-insensitive class agrees with the spec's `[a-z0-9]` on lower-cased
input), then appending the fixed suffix `-vcard-qr.png`; the fixed default
base name `contact` is used when the slug is empty; "X"/"Y" gives
`x-y-vcard-qr.png` and empty names fall back to `contact-vcard-qr.png`. -/
theorem claim_C7 :
    (∀ f l : String, downloadFileName f l = nameForSpec f l)
  ∧ downloadFileName "X" "Y" = "x-y-vcard-qr.png"
  ∧ downloadFileName "" "" = "contact-vcard-qr.png" := by
  refine ⟨?_, by decide, by decide⟩
  intro f l
  have hnup : ∀ c ∈ (jsToLower (jsTrim (f ++ " " ++ l))).data, c.isUpper = false := by
    intro c hc
    obtain ⟨d, _, hd⟩ := List.mem_map.mp hc
    rw [← hd]
    exact toLower_isUpper_false d
  simp only [downloadFileName, nameForSpec, jsTrim_idem]
  rw [(collapse_keep_eq _ hnup).1]
  simp [ite_not]

/-- Counterexample to claim C2 as stated: validation does not behave as if
email and website were trimmed first. The whitespace-only value `" "` fails
both single-field validation (for email and for website) and whole-record
validation (`recEmailWs` is the otherwise-valid example record with email
`" "`), although the claim says whitespace-only email/website always
validate. -/
theorem claim_C2_counterexample :
    (validateField noErrors Field.email " ").2 = false ∧
    validateFieldResult Field.email " " = some "validation.emailInvalid" ∧
    (validateField noErrors Field.website " ").2 = false ∧
    recordValid recEmailWs = false := by
  refine ⟨by decide, by decide, by decide, by decide⟩

/-- Claim C2 (amended): the trim-before-validation invariant holds for the ten
plain string fields (their schemas carry a trim transform; in particular the
required-field rules test the trimmed value), but email and website are
validated on the raw value: the empty string is always permitted; a value
consisting only of whitespace FAILS validation for both; a non-empty email
validates iff the raw, untrimmed value matches the email grammar, and a
non-empty website validates iff the URL grammar (which itself strips
surrounding whitespace) accepts it; the whole record validates iff every
field's rule passes. -/
theorem claim_C2 :
    (validateFieldResult Field.email "" = none ∧ validateFieldResult Field.website "" = none)
  ∧ (∀ v : String, v ≠ "" → (∀ c ∈ v.data, jsWhitespace c = true) →
      validateFieldResult Field.email v = some "validation.emailInvalid"
      ∧ validateFieldResult Field.website v = some "validation.websiteInvalid"
      ∧ recordValid (recValid.set Field.email v) = false)
  ∧ (∀ v : String, v ≠ "" →
      (validateFieldResult Field.email v = none ↔ isZodEmail v = true))
  ∧ (∀ v : String, v ≠ "" →
      (validateFieldResult Field.website v = none ↔ isAcceptedUrl v = true))
  ∧ (∀ v : String, validateFieldResult Field.firstName v = none ↔ jsTrim v ≠ "")
  ∧ (∀ v : String, validateFieldResult Field.phone v = none ↔ jsTrim v ≠ "")
  ∧ (∀ r : FormState, recordValid r = true ↔
      ∀ f : Field, validateFieldResult f (r.get f) = none) := by
  refine ⟨⟨rfl, rfl⟩, ?_, ?_, ?_, ?_, ?_, ?_⟩
  · intro v hv hws
    have hz : isZodEmail v = false := by
      unfold isZodEmail isZodEmailChars
      rw [splitFirst_none '@' v.data fun c hc => ws_ne_at (hws c hc)]
    have hu : isAcceptedUrl v = false := by
      unfold isAcceptedUrl
      rw [jsTrimList_nil_of_ws v.data hws]
      rfl
    have he : validateFieldResult Field.email v = some "validation.emailInvalid" := by
      simp [validateFieldResult, hv, hz]
    refine ⟨he, by simp [validateFieldResult, hv, hu], ?_⟩
    simp [recordValid, Field.fields, FormState.set, FormState.get, he, recValid, initialFormState]
  · intro v hv
    cases hz : isZodEmail v <;> simp [validateFieldResult, hv, hz]
  · intro v hv
    cases hu : isAcceptedUrl v <;> simp [validateFieldResult, hv, hu]
  · intro v
    by_cases h : jsTrim v = "" <;> simp [validateFieldResult, h]
  · intro v
    by_cases h : jsTrim v = "" <;> simp [validateFieldResult, h]
  · intro r
    rw [recordValid, List.all_eq_true]
    constructor
    · intro h f
      have := h f (field_mem_fields f)
      simpa [Option.isNone_iff_eq_none] using this
    · intro h f _
      rw [h f]
      rfl

/-- Witness for claim C2 at the concrete values `" "`, `"a@b.co"`,
`"https://x.co"` and `" x"`. -/
theorem claim_C2_witness :
    validateFieldResult Field.email " " = some "validation.emailInvalid" ∧
    validateFieldResult Field.website " " = some "validation.websiteInvalid" ∧
    (validateFieldResult Field.email "a@b.co" = none ↔ isZodEmail "a@b.co" = true) ∧
    (validateFieldResult Field.website "https://x.co" = none ↔ isAcceptedUrl "https://x.co" = true) ∧
    (validateFieldResult Field.firstName " x" = none ↔ jsTrim " x" ≠ "") ∧
    (recordValid recValid = true ↔ ∀ f : Field, validateFieldResult f (recValid.get f) = none) :=
  ⟨(claim_C2.2.1 " " (by decide) (by decide)).1,
   (claim_C2.2.1 " " (by decide) (by decide)).2.1,
   claim_C2.2.2.1 "a@b.co" (by decide),
   claim_C2.2.2.2.1 "https://x.co" (by decide),
   claim_C2.2.2.2.2.1 " x",
   claim_C2.2.2.2.2.2.2 recValid⟩

/-- Witness for claim C10 at the empty map, the email field and a failing
value: the phone entry is untouched, the email entry holds the email result. -/
theorem claim_C10_witness :
    (validateField noErrors Field.email "not-an-email").1 Field.phone = noErrors Field.phone ∧
    (validateField noErrors Field.email "not-an-email").1 Field.email =
      validateFieldResult Field.email "not-an-email" :=
  ⟨(claim_C10 noErrors Field.email "not-an-email").1 Field.phone (by decide),
   (claim_C10 noErrors Field.email "not-an-email").2.1⟩

end VCardQR
